import Mathlib

/-!
Shallow embedding of `riverwidth.py` (umn-earth-surface/river-channel-width).

The source defines two regime classes, `TransportLimitedWidth` and
`DetachmentLimitedWidth`.  Each holds immutable physical parameters set at
construction, a width history `self.b` (a Python list, append-only), the
current-width scalar `self.bi` and the current discharge `self.Qi`, and
advances the width by an explicit Euler step (`update`) — with an adaptive
inner sub-stepping loop in the detachment-limited case.

Python floats are modelled as real numbers; Python `**` on positive bases is
`Real.rpow`; Python lists of floats are `List ℝ`; `self.b[-1]` on the
(always non-empty) history is `lastD`; exceptions (`TypeError` on bad
construction, `RuntimeError` in the sub-stepping loop) are modelled with
`Except`/sum-like result types.  The unbounded `while` loop of
`DetachmentLimitedWidth.update` is modelled with a fuel parameter: `fuelOut`
means the recursion budget was exhausted before the loop's own exit test
fired; the loop's observable outcomes are otherwise faithful.

Peripheral methods (`run`, `finalize`, `plot`, the series-holding
`self.t`/`self.Q` attributes set by the series setter) and the stored
diagnostic attribute `self.tau_bank` are not needed by any claim and are not
modelled; the unfinished composite class `RiverWidth` at the bottom of the
file is dead code and is likewise not modelled.
-/

namespace Riverwidth

noncomputable section

/-- Exceptions raised by the source: `TypeError` from the constructors'
initial-condition check, `RuntimeError` from the sub-stepping loop, and
Python's `ZeroDivisionError` from float division by zero. -/
inductive PyErr
  | typeError
  | runtimeError
  | zeroDivisionError
deriving DecidableEq

/-- `self.b[-1]` on the (in all reachable states non-empty) width history. -/
def lastD (l : List ℝ) : ℝ := l.getLastD 0

/-! ## Constants shared by both classes (set as attributes in `__init__`). -/

/-- `self.MPM_phi = 3.97` (unused by the modelled methods). -/
def MPM_phi : ℝ := 3.97

/-- `self.g = 9.805`. -/
def g : ℝ := 9.805

/-- `self.rho_s = 2700.`. -/
def rho_s : ℝ := 2700

/-- `self.rho = 1000.`. -/
def rho : ℝ := 1000

/-- `self.tau_star_crit = 0.0495`. -/
def tau_star_crit : ℝ := 0.0495

/-- `self.SSG = (self.rho_s - self.rho) / self.rho`. -/
def SSG : ℝ := (rho_s - rho) / rho

/-! ## TransportLimitedWidth -/

/-- The state of a `TransportLimitedWidth` object: the constructor parameters
(immutable after `__init__`) and the mutable simulation state `b`, `bi`,
`Qi`, `Q0`.  The derived constants `k_b__eq` and `k_bank`, computed once in
`__init__` from the parameters and never mutated, are modelled as the
functions of the same names below. -/
structure TransportLimitedWidth where
  h_banks : ℝ
  S : ℝ
  D : ℝ
  Parker_epsilon : ℝ
  intermittency : ℝ
  b : List ℝ
  bi : ℝ
  Qi : ℝ
  Q0 : ℝ

namespace TransportLimitedWidth

/-- `self.k_b__eq = 0.17 / (self.g**.5 * self.SSG**(5/3.)
      * (1 + self.Parker_epsilon)**(5/3.) * self.tau_star_crit**(5/3.))`. -/
def k_b__eq (s : TransportLimitedWidth) : ℝ :=
  0.17 / (g ^ (0.5 : ℝ) * SSG ^ ((5 : ℝ) / 3)
    * (1 + s.Parker_epsilon) ^ ((5 : ℝ) / 3)
    * tau_star_crit ^ ((5 : ℝ) / 3))

/-- `self.k_bank = self.S**0.7 / (2.9 * self.SSG * self.g**0.3 * self.D**0.9)`. -/
def k_bank (s : TransportLimitedWidth) : ℝ :=
  s.S ^ (0.7 : ℝ) / (2.9 * SSG * g ^ (0.3 : ℝ) * s.D ^ (0.9 : ℝ))

/-- `get_equilibriumWidth`: `b_eq = self.k_b__eq * Q_eq * self.S**(7/6.) / self.D**1.5`. -/
def get_equilibriumWidth (s : TransportLimitedWidth) (Q_eq : ℝ) : ℝ :=
  s.k_b__eq * Q_eq * s.S ^ ((7 : ℝ) / 6) / s.D ^ (1.5 : ℝ)

/-- `get_dischargeAtEquilibriumWidth`:
`Q_eq = (b_eq / self.k_b__eq) * (self.D**1.5 / self.S**(7/6.))`. -/
def get_dischargeAtEquilibriumWidth (s : TransportLimitedWidth) (b_eq : ℝ) : ℝ :=
  b_eq / s.k_b__eq * (s.D ^ (1.5 : ℝ) / s.S ^ ((7 : ℝ) / 6))

/-- `get_bankShieldsStress`: `self.k_bank * (self.Qi / self.bi)**.6
/ (1. + self.Parker_epsilon)`, reading the object's current `bi` and `Qi`. -/
def get_bankShieldsStress (s : TransportLimitedWidth) : ℝ :=
  s.k_bank * (s.Qi / s.bi) ^ (0.6 : ℝ) / (1 + s.Parker_epsilon)

/-- `TransportLimitedWidth.__init__`.  Parameter order and the
initial-condition check follow the source: supplying both or neither of
`b0`, `Q0` raises `TypeError`; a given `b0` back-computes `Q0` through the
inverse equilibrium relation; a given `Q0` sets the initial width to the
equilibrium width; finally `self.bi = self.b[-1]` and `self.Qi = self.Q0`.
(Defaults in the source: `Parker_epsilon=0.2`, `intermittency=1.`.) -/
def init (h_banks S D : ℝ) (b0 Q0 : Option ℝ) (Parker_epsilon intermittency : ℝ) :
    Except PyErr TransportLimitedWidth :=
  let base : TransportLimitedWidth :=
    { h_banks := h_banks, S := S, D := D, Parker_epsilon := Parker_epsilon,
      intermittency := intermittency, b := [], bi := 0, Qi := 0, Q0 := 0 }
  match b0, Q0 with
  | some _, some _ => .error .typeError
  | none, none => .error .typeError
  | some b0v, none =>
    let Q0v := base.get_dischargeAtEquilibriumWidth b0v
    .ok { base with b := [b0v], Q0 := Q0v, bi := b0v, Qi := Q0v }
  | none, some Q0v =>
    let b0v := base.get_equilibriumWidth Q0v
    .ok { base with b := [b0v], Q0 := Q0v, bi := b0v, Qi := Q0v }

/-- `TransportLimitedWidth.update(self, dt, Qi)`:
`self.bi = self.b[-1]`; `self.Qi = Qi`;
`tau_star_bank = self.get_bankShieldsStress()`;
if it exceeds `self.tau_star_crit`, widen by
`(tau_star_bank - self.tau_star_crit)**(3/2.) * dt * self.intermittency / self.h_banks`;
finally `self.b.append(self.bi)`. -/
def update (s : TransportLimitedWidth) (dt Qi : ℝ) : TransportLimitedWidth :=
  let s1 := { s with bi := lastD s.b, Qi := Qi }
  let tau_star_bank := s1.get_bankShieldsStress
  let s2 :=
    if tau_star_bank > tau_star_crit then
      { s1 with bi := s1.bi
          + (tau_star_bank - tau_star_crit) ^ ((3 : ℝ) / 2)
            * dt * s1.intermittency / s1.h_banks }
    else s1
  { s2 with b := s2.b ++ [s2.bi] }

/-- The value `update` appends: `b[-1]` plus the widening increment (zero
when the bank Shields stress does not exceed critical). -/
def nextWidth (s : TransportLimitedWidth) (dt Qi : ℝ) : ℝ :=
  let bi := lastD s.b
  let tau_star_bank := s.k_bank * (Qi / bi) ^ (0.6 : ℝ) / (1 + s.Parker_epsilon)
  if tau_star_bank > tau_star_crit then
    bi + (tau_star_bank - tau_star_crit) ^ ((3 : ℝ) / 2) * dt * s.intermittency / s.h_banks
  else bi

/-- A sequence of `update` calls, one per `(dt, Qi)` pair, in order. -/
def runUpdates : TransportLimitedWidth → List (ℝ × ℝ) → TransportLimitedWidth
  | s, [] => s
  | s, (dt, Qi) :: rest => runUpdates (s.update dt Qi) rest

/-- Stated from the spec's words (§4.2), for comparison with the source:
`k_eq = 0.17 / (g^0.5 * SSG^(5/3) * (1+ε)^(5/3) * τ*_c^(5/3))` with
`SSG = (ρ_s - ρ)/ρ`. -/
def spec_k_eq (s : TransportLimitedWidth) : ℝ :=
  0.17 / (g ^ (0.5 : ℝ) * ((rho_s - rho) / rho) ^ ((5 : ℝ) / 3)
    * (1 + s.Parker_epsilon) ^ ((5 : ℝ) / 3) * tau_star_crit ^ ((5 : ℝ) / 3))

/-- Stated from the spec's words (§4.2): `b_eq = k_eq * Q * S^(7/6) / D^1.5`. -/
def spec_equilibriumWidth (s : TransportLimitedWidth) (Q : ℝ) : ℝ :=
  spec_k_eq s * Q * s.S ^ ((7 : ℝ) / 6) / s.D ^ (1.5 : ℝ)

/-- Stated from the spec's words (§4.3-§4.4), for comparison with the source:
the per-step widening increment
`Δb = (τ*_bank - τ*_c)^1.5 · dt · intermittency / h_banks` when the bank
Shields stress `τ*_bank = k_bank·(Q/b)^0.6/(1+ε)`,
`k_bank = S^0.7/(2.9·SSG·g^0.3·D^0.9)`, at the previous width `b_prev`
exceeds the critical stress, and `Δb = 0` otherwise. -/
def spec_deltaB (s : TransportLimitedWidth) (b_prev dt Q : ℝ) : ℝ :=
  let tau_star_bank :=
    s.S ^ (0.7 : ℝ) / (2.9 * ((rho_s - rho) / rho) * g ^ (0.3 : ℝ) * s.D ^ (0.9 : ℝ))
      * (Q / b_prev) ^ (0.6 : ℝ) / (1 + s.Parker_epsilon)
  if tau_star_crit < tau_star_bank then
    (tau_star_bank - tau_star_crit) ^ (1.5 : ℝ) * dt * s.intermittency / s.h_banks
  else 0

/-- Exception-aware wrapper for `get_equilibriumWidth`: the body
`self.k_b__eq * Q_eq * self.S**(7/6.) / self.D**1.5` contains no raise and
no domain check; the only failure Python can produce is `ZeroDivisionError`
when the divisor `D**1.5` is zero.  In particular a negative discharge is
accepted and returns normally. -/
def get_equilibriumWidthE (s : TransportLimitedWidth) (Q_eq : ℝ) : Except PyErr ℝ :=
  if s.D ^ (1.5 : ℝ) = 0 then .error .zeroDivisionError
  else .ok (s.get_equilibriumWidth Q_eq)

/-- Exception-aware wrapper for `get_bankShieldsStress`: the body performs no
width check; `self.Qi / self.bi` raises `ZeroDivisionError` exactly when
`self.bi` is zero, and the final division raises it when
`1 + self.Parker_epsilon` is zero.  (On a negative `Qi/bi` ratio Python's
`**.6` yields a complex number rather than an exception; the `.ok` value here
is meaningful for non-negative ratios, which is all the development uses.) -/
def get_bankShieldsStressE (s : TransportLimitedWidth) : Except PyErr ℝ :=
  if s.bi = 0 then .error .zeroDivisionError
  else if (1 : ℝ) + s.Parker_epsilon = 0 then .error .zeroDivisionError
  else .ok s.get_bankShieldsStress

/-- What `get_depth` (source lines 81-84) clearly intends, reading each bare
name as the object's attribute of the same name and dropping the stray
`[-1]` subscript on the scalar `self.bi`: flow depth `h = k_h·(Q/b)^0.6`
with `k_h = D^0.1/(2.9·g^0.3·S^0.3)`. -/
def get_depth_intended (s : TransportLimitedWidth) : ℝ :=
  let kh := s.D ^ (0.1 : ℝ) / (2.9 * g ^ (0.3 : ℝ) * s.S ^ (0.3 : ℝ))
  kh * (s.Qi / s.bi) ^ (0.6 : ℝ)

/-- What `get_bedShieldsStress` (source lines 86-89) clearly intends, calling
`self.get_depth()` and reading `self.D`: `τ*_bed = h·S/(SSG·D)`. -/
def get_bedShieldsStress_intended (s : TransportLimitedWidth) : ℝ :=
  let h := s.get_depth_intended
  h * s.S / (SSG * s.D)

/-- The parameter ranges the spec's interface section demands of a
transport-limited construction: positive bank height, slope, grain size and
intermittency, and an excess-shear fraction above `-1`. -/
def ValidParams (s : TransportLimitedWidth) : Prop :=
  0 < s.h_banks ∧ 0 < s.S ∧ 0 < s.D ∧ 0 < s.intermittency ∧ 0 < 1 + s.Parker_epsilon

end TransportLimitedWidth

/-! ## DetachmentLimitedWidth -/

/-- The state of a `DetachmentLimitedWidth` object: constructor parameters
plus the mutable `b`, `bi`, `Qi` (`self.Qi = None` after `__init__`).  The
derived constant `a1` is modelled as the function below; the stored
diagnostic `self.tau_bank` is not modelled. -/
structure DetachmentLimitedWidth where
  h_banks : ℝ
  S : ℝ
  tau_crit : ℝ
  k_d : ℝ
  Parker_epsilon : ℝ
  intermittency : ℝ
  lambda_r : ℝ
  b : List ℝ
  bi : ℝ
  Qi : Option ℝ

namespace DetachmentLimitedWidth

/-- `self.a1 = self.rho * self.g**.7 * self.S**.7 * self.lambda_r**.1
/ (8.1**.6 * (1 + self.Parker_epsilon))`. -/
def a1 (s : DetachmentLimitedWidth) : ℝ :=
  rho * g ^ (0.7 : ℝ) * s.S ^ (0.7 : ℝ) * s.lambda_r ^ (0.1 : ℝ)
    / ((8.1 : ℝ) ^ (0.6 : ℝ) * (1 + s.Parker_epsilon))

/-- `get_equilibriumWidth`: `b_eq = self.rho**(5/3.) * self.g**(7/6.)
* self.S**(7/6.) * self.lambda_r**(1/6.) / (8.1 * (1 + self.Parker_epsilon)**(5/3.))
* Q_eq / self.tau_crit**(5/3.)`. -/
def get_equilibriumWidth (s : DetachmentLimitedWidth) (Q_eq : ℝ) : ℝ :=
  rho ^ ((5 : ℝ) / 3) * g ^ ((7 : ℝ) / 6)
    * s.S ^ ((7 : ℝ) / 6) * s.lambda_r ^ ((1 : ℝ) / 6)
    / (8.1 * (1 + s.Parker_epsilon) ^ ((5 : ℝ) / 3))
    * Q_eq / s.tau_crit ^ ((5 : ℝ) / 3)

/-- `DetachmentLimitedWidth.__init__`: same initial-condition check as the
transport-limited class; with `b0` given the back-computation of `Q0` is
commented out in the source; in both branches `self.Qi = None`.
(Defaults in the source: `Parker_epsilon=0.2`, `intermittency=1.`,
`lambda_r=0.1`.) -/
def init (h_banks S tau_crit k_d : ℝ) (b0 Q0 : Option ℝ)
    (Parker_epsilon intermittency lambda_r : ℝ) :
    Except PyErr DetachmentLimitedWidth :=
  let base : DetachmentLimitedWidth :=
    { h_banks := h_banks, S := S, tau_crit := tau_crit, k_d := k_d,
      Parker_epsilon := Parker_epsilon, intermittency := intermittency,
      lambda_r := lambda_r, b := [], bi := 0, Qi := none }
  match b0, Q0 with
  | some _, some _ => .error .typeError
  | none, none => .error .typeError
  | some b0v, none => .ok { base with b := [b0v], bi := b0v }
  | none, some Q0v =>
    let b0v := base.get_equilibriumWidth Q0v
    .ok { base with b := [b0v], bi := b0v }

/-- Result of the inner `while dt_remaining != 0` loop of `update`:
the final `self.bi` together with the list of `dt_inner` values it used, the
`RuntimeError` raised when `dt_remaining < 0`, or exhaustion of the fuel
bound on the number of iterations. -/
inductive LoopOut
  | ok (bi : ℝ) (dts : List ℝ)
  | invariantViolation (remaining : ℝ)
  | fuelOut

/-- The body of `while dt_remaining != 0` in `update`, fuel-bounded.  Each
iteration: raise `RuntimeError` if `dt_remaining < 0`; recompute
`self.tau_bank = self.a1 * (self.Qi/self.bi)**.6`;
`dbdt = self.k_d/self.h_banks * (self.tau_bank - self.tau_crit) * self.intermittency`;
`b_eq = self.get_equilibriumWidth(self.Qi)`;
`dt_to_cutoff = max_fract_to_equilib * (b_eq - self.bi) / dbdt`;
`dt_inner = np.min((dt_to_cutoff, dt_remaining))`;
`self.bi += self.k_d/self.h_banks * (self.tau_bank - self.tau_crit) * dt_inner * self.intermittency`;
`dt_remaining -= dt_inner`.  `acc` accumulates the `dt_inner` values. -/
def innerLoop (s : DetachmentLimitedWidth) (Qi max_fract_to_equilib : ℝ) :
    ℕ → ℝ → ℝ → List ℝ → LoopOut
  | fuel, bi, dt_remaining, acc =>
    if dt_remaining = 0 then .ok bi acc
    else if dt_remaining < 0 then .invariantViolation dt_remaining
    else
      match fuel with
      | 0 => .fuelOut
      | f + 1 =>
        let tau_bank := s.a1 * (Qi / bi) ^ (0.6 : ℝ)
        let dbdt := s.k_d / s.h_banks * (tau_bank - s.tau_crit) * s.intermittency
        let b_eq := s.get_equilibriumWidth Qi
        let dt_to_cutoff := max_fract_to_equilib * (b_eq - bi) / dbdt
        let dt_inner := min dt_to_cutoff dt_remaining
        innerLoop s Qi max_fract_to_equilib f
          (bi + s.k_d / s.h_banks * (tau_bank - s.tau_crit) * dt_inner * s.intermittency)
          (dt_remaining - dt_inner) (acc ++ [dt_inner])

/-- Result of one `update` call on a `DetachmentLimitedWidth`. -/
inductive StepOut
  | ok (s : DetachmentLimitedWidth)
  | invariantViolation (remaining : ℝ)
  | fuelOut

/-- `DetachmentLimitedWidth.update(self, dt, Qi, max_fract_to_equilib=0.1)`:
`bi_outer = self.b[-1]`; `self.Qi = Qi`;
`self.tau_bank = self.a1 * (self.Qi/bi_outer)**.6`;
if `self.tau_bank > self.tau_crit` then `self.bi = self.b[-1]`,
`dt_remaining = dt`, and the inner loop runs (a `RuntimeError` escaping the
loop aborts the call before the append); in either case, finally
`self.b.append(self.bi)`.  In the no-widening branch `self.bi` is NOT
reassigned from the history: the object's existing `bi` is appended. -/
def update (s : DetachmentLimitedWidth) (fuel : ℕ) (dt Qi max_fract_to_equilib : ℝ) :
    StepOut :=
  let bi_outer := lastD s.b
  let tau_bank := s.a1 * (Qi / bi_outer) ^ (0.6 : ℝ)
  if tau_bank > s.tau_crit then
    match s.innerLoop Qi max_fract_to_equilib fuel (lastD s.b) dt [] with
    | .ok biF _ => .ok { s with Qi := some Qi, bi := biF, b := s.b ++ [biF] }
    | .invariantViolation r => .invariantViolation r
    | .fuelOut => .fuelOut
  else
    .ok { s with Qi := some Qi, b := s.b ++ [s.bi] }

/-- A sequence of `update` calls, one per `(dt, Qi)` pair, in order; a raised
`RuntimeError` (or fuel exhaustion) aborts the remaining calls. -/
def runUpdates (fuel : ℕ) (max_fract_to_equilib : ℝ) :
    DetachmentLimitedWidth → List (ℝ × ℝ) → StepOut
  | s, [] => .ok s
  | s, (dt, Qi) :: rest =>
    match s.update fuel dt Qi max_fract_to_equilib with
    | .ok s' => runUpdates fuel max_fract_to_equilib s' rest
    | .invariantViolation r => .invariantViolation r
    | .fuelOut => .fuelOut

/-- The parameter ranges the spec's interface section demands of a
detachment-limited construction: positive bank height, slope, critical bank
stress, erodibility, intermittency and roughness, and an excess-shear
fraction above `-1`. -/
def ValidParams (s : DetachmentLimitedWidth) : Prop :=
  0 < s.h_banks ∧ 0 < s.S ∧ 0 < s.tau_crit ∧ 0 < s.k_d ∧ 0 < s.intermittency ∧
    0 < s.lambda_r ∧ 0 < 1 + s.Parker_epsilon

/-- Exception-aware wrapper for the detachment-limited `get_equilibriumWidth`:
the body contains no raise and no domain check; the only failure Python can
produce is `ZeroDivisionError` when a divisor is zero.  In particular a
negative discharge is accepted and returns normally. -/
def get_equilibriumWidthE (s : DetachmentLimitedWidth) (Q_eq : ℝ) : Except PyErr ℝ :=
  if 8.1 * (1 + s.Parker_epsilon) ^ ((5 : ℝ) / 3) = 0 then .error .zeroDivisionError
  else if s.tau_crit ^ ((5 : ℝ) / 3) = 0 then .error .zeroDivisionError
  else .ok (s.get_equilibriumWidth Q_eq)

end DetachmentLimitedWidth

/-! ## Python name resolution for the broken bed-stress methods

`TransportLimitedWidth.get_depth` and `get_bedShieldsStress` read bare names
that are neither local nor parameters, so Python looks them up at module
scope at call time. -/

/-- Names bound at module scope of `riverwidth.py`: the two import aliases
and the three class statements.  No module-level `D`, `g`, `S` or
`get_depth` exists. -/
def moduleScopeNames : List String :=
  ["np", "plt", "TransportLimitedWidth", "DetachmentLimitedWidth", "RiverWidth"]

/-- Bare non-local names read by the body of
`TransportLimitedWidth.get_depth`, in evaluation order:
`kh = D**.1 / (2.9 * g**.3 * S**.3)` reads `D`, `g`, `S`. -/
def get_depth_bareReads : List String := ["D", "g", "S"]

/-- Bare non-local names read by the body of
`TransportLimitedWidth.get_bedShieldsStress`, in evaluation order:
`h = get_depth(self)` reads `get_depth`;
`tau_star_bed = h * self.S / (self.SSG * D)` reads `D`. -/
def get_bedShieldsStress_bareReads : List String := ["get_depth", "D"]

/-! ## Concrete configurations used to instantiate the general theorems -/

/-- A transport-limited object with the spec's example parameters
`h_banks=2, S=0.001, D=0.02`, defaults `ε=0.2`, `intermittency=1`, width
history `[1]` and current discharge `50`. -/
def tlExample : TransportLimitedWidth :=
  { h_banks := 2, S := 0.001, D := 0.02, Parker_epsilon := 0.2,
    intermittency := 1, b := [1], bi := 1, Qi := 50, Q0 := 50 }

/-- A detachment-limited object with unit bank height, slope, critical
stress, erodibility and roughness (so the stress algebra is tractable in
closed form), default `ε=0.2`, and width history `[1]`. -/
def dlExample : DetachmentLimitedWidth :=
  { h_banks := 1, S := 1, tau_crit := 1, k_d := 1, Parker_epsilon := 0.2,
    intermittency := 1, lambda_r := 1, b := [1], bi := 1, Qi := none }

/-- A detachment-limited object with the cohesive-bank parameters
`h_banks=2, S=0.001, tau_crit=2, k_d=1e-6`, defaults `ε=0.2`,
`intermittency=1`, `lambda_r=0.1`. -/
def dlExample2 : DetachmentLimitedWidth :=
  { h_banks := 2, S := 0.001, tau_crit := 2, k_d := 0.000001,
    Parker_epsilon := 0.2, intermittency := 1, lambda_r := 0.1,
    b := [1], bi := 1, Qi := none }

/-! ## Basic lemmas -/

lemma g_pos : (0 : ℝ) < g := by norm_num [g]

lemma rho_pos : (0 : ℝ) < rho := by norm_num [rho]

lemma SSG_pos : (0 : ℝ) < SSG := by norm_num [SSG, rho_s, rho]

lemma tau_star_crit_pos : (0 : ℝ) < tau_star_crit := by norm_num [tau_star_crit]

lemma lastD_concat (l : List ℝ) (x : ℝ) : lastD (l ++ [x]) = x := by
  induction l with
  | nil => rfl
  | cons a l ih =>
    cases l with
    | nil => rfl
    | cons b l => simp only [List.cons_append] at ih ⊢; exact ih

lemma lastD_getLast? {l : List ℝ} (h : l ≠ []) : l.getLast? = some (lastD l) := by
  induction l with
  | nil => exact absurd rfl h
  | cons a l ih =>
    cases l with
    | nil => rfl
    | cons b l => simp only [List.getLast?_cons_cons]; exact ih (by simp)

/-- Appending an element at least as large as the last keeps the history
non-decreasing. -/
lemma chain'_concat_of_le {l : List ℝ} {x : ℝ} (hne : l ≠ [])
    (hc : List.Chain' (· ≤ ·) l) (hx : lastD l ≤ x) :
    List.Chain' (· ≤ ·) (l ++ [x]) := by
  rw [List.chain'_append]
  refine ⟨hc, List.chain'_singleton x, ?_⟩
  intro a ha y hy
  rw [lastD_getLast? hne] at ha
  simp only [List.head?] at hy
  cases ha
  cases hy
  exact hx

namespace TransportLimitedWidth

lemma update_eq (s : TransportLimitedWidth) (dt Qi : ℝ) :
    s.update dt Qi =
      { s with bi := s.nextWidth dt Qi, Qi := Qi, b := s.b ++ [s.nextWidth dt Qi] } := by
  unfold update nextWidth get_bankShieldsStress k_bank
  dsimp only
  split <;> rfl

lemma update_b (s : TransportLimitedWidth) (dt Qi : ℝ) :
    (s.update dt Qi).b = s.b ++ [s.nextWidth dt Qi] := by rw [update_eq]

lemma update_bi (s : TransportLimitedWidth) (dt Qi : ℝ) :
    (s.update dt Qi).bi = s.nextWidth dt Qi := by rw [update_eq]

lemma update_valid {s : TransportLimitedWidth} (h : s.ValidParams) (dt Qi : ℝ) :
    (s.update dt Qi).ValidParams := by
  rw [update_eq]; exact h

lemma lastD_le_nextWidth {s : TransportLimitedWidth} (hh : 0 < s.h_banks)
    (hi : 0 < s.intermittency) {dt : ℝ} (hdt : 0 ≤ dt) (Qi : ℝ) :
    lastD s.b ≤ s.nextWidth dt Qi := by
  unfold nextWidth
  dsimp only
  split
  · rename_i htau
    have hpow : 0 ≤ (s.k_bank * (Qi / lastD s.b) ^ (0.6 : ℝ) / (1 + s.Parker_epsilon)
        - tau_star_crit) ^ ((3 : ℝ) / 2) :=
      Real.rpow_nonneg (by linarith) _
    have : 0 ≤ (s.k_bank * (Qi / lastD s.b) ^ (0.6 : ℝ) / (1 + s.Parker_epsilon)
        - tau_star_crit) ^ ((3 : ℝ) / 2) * dt * s.intermittency / s.h_banks := by
      apply div_nonneg _ hh.le
      exact mul_nonneg (mul_nonneg hpow hdt) hi.le
    linarith
  · exact le_refl _

/-- Invariants of a transport-limited run: parameters stay valid, the width
history stays non-empty, positive at its end and non-decreasing, and its
length grows by one per call. -/
lemma TL_runUpdates_props : ∀ (steps : List (ℝ × ℝ)) (s : TransportLimitedWidth),
    s.ValidParams → (∀ x ∈ steps, 0 ≤ x.1) → s.b ≠ [] → 0 < lastD s.b →
    List.Chain' (· ≤ ·) s.b →
    (s.runUpdates steps).b.length = s.b.length + steps.length ∧
      (s.runUpdates steps).b ≠ [] ∧ 0 < lastD (s.runUpdates steps).b ∧
      List.Chain' (· ≤ ·) (s.runUpdates steps).b
  | [], s => by
    intro _ _ hne hpos hchain
    exact ⟨by simp [runUpdates], hne, hpos, hchain⟩
  | (dt, Qi) :: rest, s => by
    intro hv hsteps hne hpos hchain
    have hdt : 0 ≤ dt := hsteps (dt, Qi) (by simp)
    have hle : lastD s.b ≤ s.nextWidth dt Qi :=
      lastD_le_nextWidth hv.1 hv.2.2.2.1 hdt Qi
    have hb' : (s.update dt Qi).b = s.b ++ [s.nextWidth dt Qi] := update_b s dt Qi
    have hlast' : lastD (s.update dt Qi).b = s.nextWidth dt Qi := by
      rw [hb', lastD_concat]
    have ih := TL_runUpdates_props rest (s.update dt Qi) (update_valid hv dt Qi)
      (fun x hx => hsteps x (by simp [hx]))
      (by simp [hb']) (by rw [hlast']; linarith)
      (by rw [hb']; exact chain'_concat_of_le hne hchain hle)
    refine ⟨?_, ih.2.1, ih.2.2.1, ih.2.2.2⟩
    rw [show s.runUpdates ((dt, Qi) :: rest) = (s.update dt Qi).runUpdates rest from rfl,
      ih.1, hb']
    simp
    omega

lemma k_b__eq_pos {s : TransportLimitedWidth} (h : s.ValidParams) :
    0 < s.k_b__eq := by
  unfold k_b__eq
  apply div_pos (by norm_num)
  exact mul_pos (mul_pos (mul_pos (Real.rpow_pos_of_pos g_pos _)
    (Real.rpow_pos_of_pos SSG_pos _)) (Real.rpow_pos_of_pos h.2.2.2.2 _))
    (Real.rpow_pos_of_pos tau_star_crit_pos _)

/-- The appended width equals the previous width plus the spec's closed-form
increment. -/
lemma nextWidth_eq_spec (s : TransportLimitedWidth) (dt Qi : ℝ) :
    s.nextWidth dt Qi = lastD s.b + s.spec_deltaB (lastD s.b) dt Qi := by
  unfold nextWidth spec_deltaB k_bank SSG
  dsimp only
  split_ifs with h1
  · norm_num
  · simp

end TransportLimitedWidth

namespace DetachmentLimitedWidth

lemma a1_pos {s : DetachmentLimitedWidth} (h : s.ValidParams) : 0 < s.a1 := by
  unfold a1
  apply div_pos
  · exact mul_pos (mul_pos (mul_pos rho_pos (Real.rpow_pos_of_pos g_pos _))
      (Real.rpow_pos_of_pos h.2.1 _)) (Real.rpow_pos_of_pos h.2.2.2.2.2.1 _)
  · exact mul_pos (Real.rpow_pos_of_pos (by norm_num) _) h.2.2.2.2.2.2

/-- The coefficient of `get_equilibriumWidth` is exactly `a1 ** (5/3)`: the
equilibrium width is the width at which the bank shear stress
`a1 * (Q/b) ** 0.6` equals `tau_crit`. -/
lemma a1_rpow_five_thirds {s : DetachmentLimitedWidth} (h : s.ValidParams) :
    s.a1 ^ ((5 : ℝ) / 3) =
      rho ^ ((5 : ℝ) / 3) * g ^ ((7 : ℝ) / 6)
        * s.S ^ ((7 : ℝ) / 6) * s.lambda_r ^ ((1 : ℝ) / 6)
        / (8.1 * (1 + s.Parker_epsilon) ^ ((5 : ℝ) / 3)) := by
  have hg : (0 : ℝ) ≤ g ^ (0.7 : ℝ) := (Real.rpow_pos_of_pos g_pos _).le
  have hS : (0 : ℝ) ≤ s.S ^ (0.7 : ℝ) := (Real.rpow_pos_of_pos h.2.1 _).le
  have hl : (0 : ℝ) ≤ s.lambda_r ^ (0.1 : ℝ) :=
    (Real.rpow_pos_of_pos h.2.2.2.2.2.1 _).le
  have h81 : (0 : ℝ) ≤ (8.1 : ℝ) ^ (0.6 : ℝ) :=
    (Real.rpow_pos_of_pos (by norm_num) _).le
  have hε : (0 : ℝ) ≤ 1 + s.Parker_epsilon := h.2.2.2.2.2.2.le
  unfold a1
  rw [Real.div_rpow (mul_nonneg (mul_nonneg (mul_nonneg rho_pos.le hg) hS) hl)
      (mul_nonneg h81 hε),
    Real.mul_rpow (mul_nonneg (mul_nonneg rho_pos.le hg) hS) hl,
    Real.mul_rpow (mul_nonneg rho_pos.le hg) hS,
    Real.mul_rpow rho_pos.le hg,
    Real.mul_rpow h81 hε,
    ← Real.rpow_mul g_pos.le, ← Real.rpow_mul h.2.1.le,
    ← Real.rpow_mul h.2.2.2.2.2.1.le, ← Real.rpow_mul (by norm_num)]
  norm_num

lemma get_equilibriumWidth_eq_a1 {s : DetachmentLimitedWidth} (h : s.ValidParams)
    (Q : ℝ) :
    s.get_equilibriumWidth Q =
      s.a1 ^ ((5 : ℝ) / 3) * Q / s.tau_crit ^ ((5 : ℝ) / 3) := by
  rw [a1_rpow_five_thirds h]
  rfl

/-- The bank shear stress at width `b` exceeds `tau_crit` exactly when `b` is
below the equilibrium width at the current discharge. -/
lemma tau_gt_crit_iff {s : DetachmentLimitedWidth} (h : s.ValidParams)
    {Qi b : ℝ} (hQ : 0 < Qi) (hb : 0 < b) :
    s.tau_crit < s.a1 * (Qi / b) ^ (0.6 : ℝ) ↔ b < s.get_equilibriumWidth Qi := by
  have ha1 : 0 < s.a1 := a1_pos h
  have htc : 0 < s.tau_crit := h.2.2.1
  have hr : 0 < Qi / b := div_pos hQ hb
  have hX : 0 < (s.tau_crit / s.a1) ^ ((5 : ℝ) / 3) :=
    Real.rpow_pos_of_pos (div_pos htc ha1) _
  have hcollapse : ((Qi / b) ^ (0.6 : ℝ)) ^ ((5 : ℝ) / 3) = Qi / b := by
    rw [← Real.rpow_mul hr.le]
    norm_num
  have key : s.tau_crit / s.a1 < (Qi / b) ^ (0.6 : ℝ) ↔
      (s.tau_crit / s.a1) ^ ((5 : ℝ) / 3) < Qi / b := by
    nth_rewrite 2 [← hcollapse]
    exact (Real.rpow_lt_rpow_iff (div_pos htc ha1).le
      (Real.rpow_nonneg hr.le _) (show (0 : ℝ) < 5 / 3 by norm_num)).symm
  have hQdiv : Qi / ((s.tau_crit / s.a1) ^ ((5 : ℝ) / 3)) =
      s.a1 ^ ((5 : ℝ) / 3) * Qi / s.tau_crit ^ ((5 : ℝ) / 3) := by
    rw [Real.div_rpow htc.le ha1.le, div_div_eq_mul_div]
    ring
  rw [get_equilibriumWidth_eq_a1 h, ← hQdiv]
  constructor
  · intro ht
    have h1 : s.tau_crit / s.a1 < (Qi / b) ^ (0.6 : ℝ) :=
      (div_lt_iff₀ ha1).mpr (by linarith [mul_comm s.a1 ((Qi / b) ^ (0.6 : ℝ))])
    have h2 := key.mp h1
    rw [lt_div_iff₀ hX]
    calc b * (s.tau_crit / s.a1) ^ ((5 : ℝ) / 3)
        < b * (Qi / b) := by
          have := (mul_lt_mul_left hb).mpr h2
          linarith [this]
      _ = Qi := by field_simp
  · intro hlt
    have h2 : (s.tau_crit / s.a1) ^ ((5 : ℝ) / 3) < Qi / b := by
      rw [lt_div_iff₀ hb]
      have := (lt_div_iff₀ hX).mp hlt
      linarith [this]
    have h1 := key.mpr h2
    have := (div_lt_iff₀ ha1).mp h1
    linarith [mul_comm ((Qi / b) ^ (0.6 : ℝ)) s.a1]

/-- The sub-stepping loop never reaches the `RuntimeError` branch from a
non-negative remaining time, and on normal exit the recorded `dt_inner`
values account exactly for the time consumed: their sum is the accumulator's
sum plus the remaining time at entry. -/
lemma innerLoop_props (s : DetachmentLimitedWidth) (Qi mf : ℝ) :
    ∀ (fuel : ℕ) (bi rem : ℝ) (acc : List ℝ), 0 ≤ rem →
      (∀ r, s.innerLoop Qi mf fuel bi rem acc ≠ .invariantViolation r) ∧
      (∀ biF ds, s.innerLoop Qi mf fuel bi rem acc = .ok biF ds →
        ds.sum = acc.sum + rem) := by
  intro fuel
  induction fuel with
  | zero =>
    intro bi rem acc hrem
    rw [innerLoop]
    split_ifs with h0 hneg
    · constructor
      · intro r hr
        cases hr
      · intro biF ds hok
        cases hok
        simp [h0]
    · exact absurd hneg (not_lt.mpr hrem)
    · constructor
      · intro r hr
        cases hr
      · intro biF ds hok
        cases hok
  | succ f ih =>
    intro bi rem acc hrem
    rw [innerLoop]
    split_ifs with h0 hneg
    · constructor
      · intro r hr
        cases hr
      · intro biF ds hok
        cases hok
        simp [h0]
    · exact absurd hneg (not_lt.mpr hrem)
    · dsimp only
      have hrem' : 0 ≤ rem - min (mf * (s.get_equilibriumWidth Qi - bi) /
          (s.k_d / s.h_banks * (s.a1 * (Qi / bi) ^ (0.6 : ℝ) - s.tau_crit)
            * s.intermittency)) rem := by
        have := min_le_right (mf * (s.get_equilibriumWidth Qi - bi) /
          (s.k_d / s.h_banks * (s.a1 * (Qi / bi) ^ (0.6 : ℝ) - s.tau_crit)
            * s.intermittency)) rem
        linarith
      refine ⟨(ih _ _ _ hrem').1, fun biF ds hok => ?_⟩
      have hsum := (ih _ _ _ hrem').2 biF ds hok
      rw [hsum]
      simp only [List.sum_append, List.sum_cons, List.sum_nil]
      ring

/-- Inside the widening branch the loop's width is non-decreasing, stays
positive and never reaches the equilibrium width: each inner step moves at
most the fraction `mf < 1` of the remaining gap toward equilibrium. -/
lemma innerLoop_mono {s : DetachmentLimitedWidth} (h : s.ValidParams)
    {Qi mf : ℝ} (hQ : 0 < Qi) (hmf0 : 0 < mf) (hmf1 : mf < 1) :
    ∀ (fuel : ℕ) (bi rem : ℝ) (acc : List ℝ) (biF : ℝ) (ds : List ℝ),
      0 < bi → bi < s.get_equilibriumWidth Qi → 0 ≤ rem →
      s.innerLoop Qi mf fuel bi rem acc = .ok biF ds →
      bi ≤ biF ∧ 0 < biF ∧ biF < s.get_equilibriumWidth Qi := by
  intro fuel
  induction fuel with
  | zero =>
    intro bi rem acc biF ds hbi hlt hrem hok
    rw [innerLoop] at hok
    split_ifs at hok with h0 hneg
    · cases hok; exact ⟨le_refl _, hbi, hlt⟩
  | succ f ih =>
    intro bi rem acc biF ds hbi hlt hrem hok
    rw [innerLoop] at hok
    split_ifs at hok with h0 hneg
    · cases hok; exact ⟨le_refl _, hbi, hlt⟩
    · dsimp only at hok
      have htau : s.tau_crit < s.a1 * (Qi / bi) ^ (0.6 : ℝ) :=
        (tau_gt_crit_iff h hQ hbi).mpr hlt
      have hdbdt : 0 < s.k_d / s.h_banks
          * (s.a1 * (Qi / bi) ^ (0.6 : ℝ) - s.tau_crit) * s.intermittency :=
        mul_pos (mul_pos (div_pos h.2.2.2.1 h.1) (sub_pos.mpr htau)) h.2.2.2.2.1
      have hgap : 0 < s.get_equilibriumWidth Qi - bi := sub_pos.mpr hlt
      have hcut : 0 < mf * (s.get_equilibriumWidth Qi - bi)
          / (s.k_d / s.h_banks
            * (s.a1 * (Qi / bi) ^ (0.6 : ℝ) - s.tau_crit) * s.intermittency) :=
        div_pos (mul_pos hmf0 hgap) hdbdt
      have hrpos : 0 < rem := lt_of_le_of_ne hrem (Ne.symm h0)
      set dbdt := s.k_d / s.h_banks
        * (s.a1 * (Qi / bi) ^ (0.6 : ℝ) - s.tau_crit) * s.intermittency with hdbdt_def
      set dt_inner := min (mf * (s.get_equilibriumWidth Qi - bi) / dbdt) rem
        with hdi_def
      have hdi_pos : 0 < dt_inner := lt_min hcut hrpos
      have hincr_eq : s.k_d / s.h_banks
          * (s.a1 * (Qi / bi) ^ (0.6 : ℝ) - s.tau_crit) * dt_inner
          * s.intermittency = dbdt * dt_inner := by
        rw [hdbdt_def]; ring
      have hincr_pos : 0 < dbdt * dt_inner := mul_pos hdbdt hdi_pos
      have hincr_lt : dbdt * dt_inner < s.get_equilibriumWidth Qi - bi := by
        have h1 : dbdt * dt_inner ≤ dbdt
            * (mf * (s.get_equilibriumWidth Qi - bi) / dbdt) :=
          mul_le_mul_of_nonneg_left (min_le_left _ _) hdbdt.le
        have h2 : dbdt * (mf * (s.get_equilibriumWidth Qi - bi) / dbdt) =
            mf * (s.get_equilibriumWidth Qi - bi) := by
          field_simp
        have h3 : mf * (s.get_equilibriumWidth Qi - bi)
            < s.get_equilibriumWidth Qi - bi :=
          mul_lt_of_lt_one_left hgap hmf1
      -- each sub-step covers strictly less than the remaining gap
        linarith
      rw [hincr_eq] at hok
      have hbi' : 0 < bi + dbdt * dt_inner := by linarith
      have hlt' : bi + dbdt * dt_inner < s.get_equilibriumWidth Qi := by linarith
      have hrem' : 0 ≤ rem - dt_inner := by
        have := min_le_right (mf * (s.get_equilibriumWidth Qi - bi) / dbdt) rem
        rw [← hdi_def] at this
        linarith
      have := ih _ _ _ _ _ hbi' hlt' hrem' hok
      exact ⟨by linarith [this.1], this.2.1, this.2.2⟩

/-- Each successful `update` appends exactly one element, the new `bi`, and
leaves every constructor parameter unchanged: the result is the input object
with `Qi` set and one width appended. -/
lemma update_ok_shape {s : DetachmentLimitedWidth} {fuel : ℕ} {dt Qi mf : ℝ}
    {s' : DetachmentLimitedWidth} (hok : s.update fuel dt Qi mf = .ok s') :
    ∃ w, s' = { s with Qi := some Qi, bi := w, b := s.b ++ [w] } := by
  unfold update at hok
  dsimp only at hok
  split_ifs at hok with htau
  · rcases hl : s.innerLoop Qi mf fuel (lastD s.b) dt [] with
      ⟨biF, ds⟩ | r | _ <;> rw [hl] at hok <;> cases hok
    exact ⟨biF, rfl⟩
  · cases hok
    exact ⟨s.bi, rfl⟩

lemma valid_of_shape {s : DetachmentLimitedWidth} {Qi w : ℝ}
    (h : s.ValidParams) :
    ValidParams { s with Qi := some Qi, bi := w, b := s.b ++ [w] } := h

/-- A successful `update` never lowers the width below `b[-1]` and keeps it
positive, provided the object's `bi` agrees with `b[-1]` (which holds in all
reachable states). -/
lemma update_ok_mono {s : DetachmentLimitedWidth} (h : s.ValidParams)
    {fuel : ℕ} {dt Qi mf : ℝ} (hmf0 : 0 < mf) (hmf1 : mf < 1)
    (hdt : 0 ≤ dt) (hQ : 0 ≤ Qi) (hb : 0 < lastD s.b) (hbi : s.bi = lastD s.b)
    {s' : DetachmentLimitedWidth} (hok : s.update fuel dt Qi mf = .ok s') :
    lastD s.b ≤ s'.bi ∧ 0 < s'.bi := by
  unfold update at hok
  dsimp only at hok
  split_ifs at hok with htau
  · have hQpos : 0 < Qi := by
      rcases hQ.lt_or_eq with hlt | heq
      · exact hlt
      · exfalso
        rw [← heq] at htau
        rw [zero_div, Real.zero_rpow (by norm_num), mul_zero] at htau
        exact absurd htau (not_lt.mpr h.2.2.1.le)
    have hlt : lastD s.b < s.get_equilibriumWidth Qi :=
      (tau_gt_crit_iff h hQpos hb).mp htau
    rcases hl : s.innerLoop Qi mf fuel (lastD s.b) dt [] with
      ⟨biF, ds⟩ | r | _ <;> rw [hl] at hok <;> cases hok
    have := innerLoop_mono h hQpos hmf0 hmf1 fuel (lastD s.b) dt [] biF ds
      hb hlt hdt hl
    exact ⟨this.1, this.2.1⟩
  · cases hok
    exact ⟨by rw [hbi], by rw [hbi]; exact hb⟩

/-- A non-negative outer `dt` never triggers the `RuntimeError` branch of the
sub-stepping loop, whichever branch `update` takes. -/
lemma update_no_violation (s : DetachmentLimitedWidth) (fuel : ℕ)
    {dt : ℝ} (Qi mf : ℝ) (hdt : 0 ≤ dt) :
    ∀ r, s.update fuel dt Qi mf ≠ .invariantViolation r := by
  intro r hcon
  unfold update at hcon
  dsimp only at hcon
  split_ifs at hcon with htau
  · rcases hl : s.innerLoop Qi mf fuel (lastD s.b) dt [] with ⟨biF, ds⟩ | rv | _
    · rw [hl] at hcon; cases hcon
    · rw [hl] at hcon
      cases hcon
      exact (innerLoop_props s Qi mf fuel (lastD s.b) dt [] hdt).1 _ hl
    · rw [hl] at hcon; cases hcon

/-- Invariants of a detachment-limited run: as long as every `update`
returns normally, the width history grows by one element per call, stays
non-decreasing, positive at its end, and `bi` tracks `b[-1]`. -/
lemma DL_runUpdates_props : ∀ (steps : List (ℝ × ℝ)) (s : DetachmentLimitedWidth)
    (fuel : ℕ) (mf : ℝ), 0 < mf → mf < 1 → s.ValidParams →
    (∀ x ∈ steps, 0 ≤ x.1 ∧ 0 ≤ x.2) → s.b ≠ [] → 0 < lastD s.b →
    s.bi = lastD s.b → List.Chain' (· ≤ ·) s.b →
    ∀ sF, runUpdates fuel mf s steps = .ok sF →
      sF.b.length = s.b.length + steps.length ∧ sF.b ≠ [] ∧
        0 < lastD sF.b ∧ sF.bi = lastD sF.b ∧ List.Chain' (· ≤ ·) sF.b
  | [], s, fuel => by
    intro mf hmf0 hmf1 hv hsteps hne hpos hbi hchain sF hok
    cases hok
    exact ⟨by simp, hne, hpos, hbi, hchain⟩
  | (dt, Qi) :: rest, s, fuel => by
    intro mf hmf0 hmf1 hv hsteps hne hpos hbi hchain sF hok
    rw [runUpdates] at hok
    rcases hup : s.update fuel dt Qi mf with s' | r | _ <;> rw [hup] at hok
    · dsimp only at hok
      rcases update_ok_shape hup with ⟨w, hshape⟩
      have hdt : 0 ≤ dt := (hsteps (dt, Qi) (by simp)).1
      have hQ : 0 ≤ Qi := (hsteps (dt, Qi) (by simp)).2
      have hmono := update_ok_mono hv hmf0 hmf1 hdt hQ hpos hbi hup
      have hb' : s'.b = s.b ++ [s'.bi] := by rw [hshape]
      have hlast' : lastD s'.b = s'.bi := by rw [hb', lastD_concat]
      have hv' : s'.ValidParams := by rw [hshape]; exact valid_of_shape hv
      have ih := DL_runUpdates_props rest s' fuel mf hmf0 hmf1 hv'
        (fun x hx => hsteps x (by simp [hx]))
        (by simp [hb']) (by rw [hlast']; exact hmono.2) hlast'.symm
        (by rw [hb']; exact chain'_concat_of_le hne hchain hmono.1)
        sF hok
      refine ⟨?_, ih.2⟩
      rw [ih.1, hb']
      simp
      omega
    · cases hok
    · cases hok

end DetachmentLimitedWidth

/-! ## Claim theorems -/

/-- C5: for every discharge `Q ≥ 0` (indeed for every real `Q`: the relation
is a pure function of its argument and the constructor parameters, with no
side effects), the transport-limited equilibrium-width relation returns
`b_eq = k_eq · Q · S^(7/6) / D^1.5` with
`k_eq = 0.17/(g^0.5 · SSG^(5/3) · (1+ε)^(5/3) · τ*_c^(5/3))` and
`SSG = (ρ_s-ρ)/ρ`, as the spec states it. -/
theorem transportLimited_equilibriumWidth_matches_spec
    (s : TransportLimitedWidth) (Q : ℝ) (_hQ : 0 ≤ Q) :
    s.get_equilibriumWidth Q = s.spec_equilibriumWidth Q := by
  unfold TransportLimitedWidth.get_equilibriumWidth
    TransportLimitedWidth.spec_equilibriumWidth TransportLimitedWidth.k_b__eq
    TransportLimitedWidth.spec_k_eq SSG
  rfl

theorem transportLimited_equilibriumWidth_matches_spec_witness :
    (0 : ℝ) ≤ 50 ∧
      tlExample.get_equilibriumWidth 50 = tlExample.spec_equilibriumWidth 50 :=
  ⟨by norm_num,
    transportLimited_equilibriumWidth_matches_spec tlExample 50 (by norm_num)⟩

/-- C7: for valid parameters and every discharge `Q > 0`, the
transport-limited equilibrium-width relation and its inverse are mutual
inverses, exactly, in real arithmetic:
`get_dischargeAtEquilibriumWidth (get_equilibriumWidth Q) = Q`. -/
theorem equilibrium_width_discharge_roundtrip
    (s : TransportLimitedWidth) (h : s.ValidParams) (Q : ℝ) (_hQ : 0 < Q) :
    s.get_dischargeAtEquilibriumWidth (s.get_equilibriumWidth Q) = Q := by
  have hk : s.k_b__eq ≠ 0 := (TransportLimitedWidth.k_b__eq_pos h).ne'
  have hS : s.S ^ ((7 : ℝ) / 6) ≠ 0 := (Real.rpow_pos_of_pos h.2.1 _).ne'
  have hD : s.D ^ (1.5 : ℝ) ≠ 0 := (Real.rpow_pos_of_pos h.2.2.1 _).ne'
  unfold TransportLimitedWidth.get_dischargeAtEquilibriumWidth
    TransportLimitedWidth.get_equilibriumWidth
  field_simp
  ring

theorem equilibrium_width_discharge_roundtrip_witness :
    tlExample.ValidParams ∧ (0 : ℝ) < 50 ∧
      tlExample.get_dischargeAtEquilibriumWidth
        (tlExample.get_equilibriumWidth 50) = 50 := by
  have hv : tlExample.ValidParams := by
    refine ⟨?_, ?_, ?_, ?_, ?_⟩ <;> norm_num [tlExample]
  exact ⟨hv, by norm_num,
    equilibrium_width_discharge_roundtrip tlExample hv 50 (by norm_num)⟩

/-- C2: the transport-limited per-step update with `dt ≥ 0` and `Q ≥ 0`
computes the bank Shields stress at the current width and appends to the
width history exactly one element,
`b_prev + (τ*_bank - τ*_c)^1.5 · dt · intermittency / h_banks` when the
stress exceeds the critical stress and `b_prev` unchanged otherwise, with no
internal sub-stepping. -/
theorem transportLimited_update_implements_spec_step
    (s : TransportLimitedWidth) (dt Qi : ℝ) (_hdt : 0 ≤ dt) (_hQ : 0 ≤ Qi) :
    (s.update dt Qi).b = s.b ++ [lastD s.b + s.spec_deltaB (lastD s.b) dt Qi] := by
  rw [TransportLimitedWidth.update_b, TransportLimitedWidth.nextWidth_eq_spec]

theorem transportLimited_update_implements_spec_step_witness :
    (0 : ℝ) ≤ 86400 ∧ (0 : ℝ) ≤ 500 ∧
      (tlExample.update 86400 500).b =
        tlExample.b ++ [lastD tlExample.b
          + tlExample.spec_deltaB (lastD tlExample.b) 86400 500] :=
  ⟨by norm_num, by norm_num,
    transportLimited_update_implements_spec_step tlExample 86400 500
      (by norm_num) (by norm_num)⟩

/-- C6: constructing either regime class raises `TypeError` (the source's
realization of the spec's `InvalidConfiguration`) exactly when `b0` and `Q0`
are both supplied or both omitted, and construction succeeds exactly when
one of the two is given. -/
theorem constructors_require_exactly_one_initial_condition
    (hb S D tc kd eps itc lam : ℝ) (b0 Q0 : Option ℝ) :
    (TransportLimitedWidth.init hb S D b0 Q0 eps itc = .error .typeError ↔
      b0.isSome = Q0.isSome) ∧
    (DetachmentLimitedWidth.init hb S tc kd b0 Q0 eps itc lam = .error .typeError ↔
      b0.isSome = Q0.isSome) ∧
    ((∃ m, TransportLimitedWidth.init hb S D b0 Q0 eps itc = .ok m) ↔
      ¬b0.isSome = Q0.isSome) ∧
    ((∃ m, DetachmentLimitedWidth.init hb S tc kd b0 Q0 eps itc lam = .ok m) ↔
      ¬b0.isSome = Q0.isSome) := by
  rcases b0 with _ | b0v <;> rcases Q0 with _ | q0v <;>
    simp [TransportLimitedWidth.init, DetachmentLimitedWidth.init]

theorem constructors_require_exactly_one_initial_condition_witness :
    TransportLimitedWidth.init 2 0.001 0.02 (some 10) (some 50) 0.2 1 =
        .error .typeError ∧
      DetachmentLimitedWidth.init 2 0.001 2 0.000001 none none 0.2 1 0.1 =
        .error .typeError ∧
      (∃ m, TransportLimitedWidth.init 2 0.001 0.02 (some 10) none 0.2 1 = .ok m) :=
  ⟨(constructors_require_exactly_one_initial_condition 2 0.001 0.02 2 0.000001
      0.2 1 0.1 (some 10) (some 50)).1.mpr rfl,
    (constructors_require_exactly_one_initial_condition 2 0.001 2 2 0.000001
      0.2 1 0.1 none none).2.1.mpr rfl,
    (constructors_require_exactly_one_initial_condition 2 0.001 0.02 2 0.000001
      0.2 1 0.1 (some 10) none).2.2.1.mpr (by simp)⟩

/-- C10: after construction and after every call to `update` on either
regime class, the scalar current-width attribute `bi` equals the last
element of the width history `b`; in particular the detachment-limited
no-widening branch, which appends `bi` without reassigning it from the
history, still appends the unchanged current width. -/
theorem bi_tracks_width_history_last :
    (∀ (hb S D eps itc : ℝ) (b0 Q0 : Option ℝ) (m : TransportLimitedWidth),
      TransportLimitedWidth.init hb S D b0 Q0 eps itc = .ok m →
      m.bi = lastD m.b) ∧
    (∀ (s : TransportLimitedWidth) (dt Qi : ℝ),
      (s.update dt Qi).bi = lastD (s.update dt Qi).b) ∧
    (∀ (hb S tc kd eps itc lam : ℝ) (b0 Q0 : Option ℝ)
        (m : DetachmentLimitedWidth),
      DetachmentLimitedWidth.init hb S tc kd b0 Q0 eps itc lam = .ok m →
      m.bi = lastD m.b) ∧
    (∀ (s : DetachmentLimitedWidth) (fuel : ℕ) (dt Qi mf : ℝ)
        (s' : DetachmentLimitedWidth),
      s.update fuel dt Qi mf = .ok s' → s'.bi = lastD s'.b) := by
  refine ⟨?_, ?_, ?_, ?_⟩
  · intro hb S D eps itc b0 Q0 m hok
    rcases b0 with _ | b0v <;> rcases Q0 with _ | q0v <;> cases hok <;> rfl
  · intro s dt Qi
    rw [TransportLimitedWidth.update_bi, TransportLimitedWidth.update_b,
      lastD_concat]
  · intro hb S tc kd eps itc lam b0 Q0 m hok
    rcases b0 with _ | b0v <;> rcases Q0 with _ | q0v <;> cases hok <;> rfl
  · intro s fuel dt Qi mf s' hok
    rcases DetachmentLimitedWidth.update_ok_shape hok with ⟨w, hshape⟩
    subst hshape
    exact (lastD_concat s.b w).symm

theorem bi_tracks_width_history_last_witness :
    dlExample.update 0 0 0 0.1 =
        .ok { dlExample with Qi := some 0, b := dlExample.b ++ [dlExample.bi] } ∧
      ({ dlExample with
          Qi := some 0,
          b := dlExample.b ++ [dlExample.bi] } : DetachmentLimitedWidth).bi =
        lastD ({ dlExample with
          Qi := some 0,
          b := dlExample.b ++ [dlExample.bi] } : DetachmentLimitedWidth).b := by
  have heval : dlExample.update 0 0 0 0.1 =
      .ok { dlExample with Qi := some 0, b := dlExample.b ++ [dlExample.bi] } := by
    unfold DetachmentLimitedWidth.update
    dsimp only
    split_ifs with hcond
    · exfalso
      rw [zero_div, Real.zero_rpow (by norm_num), mul_zero] at hcond
      have h1 : (0 : ℝ) < dlExample.tau_crit := by norm_num [dlExample]
      exact absurd hcond (not_lt.mpr h1.le)
    · rfl
  exact ⟨heval,
    bi_tracks_width_history_last.2.2.2 dlExample 0 0 0 0.1 _ heval⟩

/-- C1: for every sequence of `update` calls with `dt ≥ 0` and discharge
`≥ 0`, on either regime class with valid parameters, starting from a
positive prescribed initial width, each call appends exactly one element to
the width history (for the detachment-limited class: each call that returns
normally), and the width history is non-decreasing: `b[i] ≥ b[i-1]` for all
`i`. -/
theorem width_history_appends_once_and_monotone :
    (∀ (s : TransportLimitedWidth) (dt Qi : ℝ),
      (s.update dt Qi).b = s.b ++ [(s.update dt Qi).bi]) ∧
    (∀ (s : DetachmentLimitedWidth) (fuel : ℕ) (dt Qi mf : ℝ)
        (s' : DetachmentLimitedWidth),
      s.update fuel dt Qi mf = .ok s' → s'.b = s.b ++ [s'.bi]) ∧
    (∀ (hb S D eps itc b0 : ℝ) (m : TransportLimitedWidth)
        (steps : List (ℝ × ℝ)),
      TransportLimitedWidth.init hb S D (some b0) none eps itc = .ok m →
      m.ValidParams → 0 < b0 → (∀ x ∈ steps, 0 ≤ x.1 ∧ 0 ≤ x.2) →
      (m.runUpdates steps).b.length = steps.length + 1 ∧
        List.Chain' (· ≤ ·) (m.runUpdates steps).b) ∧
    (∀ (hb S tc kd eps itc lam b0 mf : ℝ) (fuel : ℕ)
        (m sF : DetachmentLimitedWidth) (steps : List (ℝ × ℝ)),
      DetachmentLimitedWidth.init hb S tc kd (some b0) none eps itc lam = .ok m →
      m.ValidParams → 0 < b0 → 0 < mf → mf < 1 →
      (∀ x ∈ steps, 0 ≤ x.1 ∧ 0 ≤ x.2) →
      DetachmentLimitedWidth.runUpdates fuel mf m steps = .ok sF →
      sF.b.length = steps.length + 1 ∧ List.Chain' (· ≤ ·) sF.b) := by
  refine ⟨?_, ?_, ?_, ?_⟩
  · intro s dt Qi
    rw [TransportLimitedWidth.update_bi, TransportLimitedWidth.update_b]
  · intro s fuel dt Qi mf s' hok
    rcases DetachmentLimitedWidth.update_ok_shape hok with ⟨w, hshape⟩
    subst hshape
    rfl
  · intro hb S D eps itc b0 m steps hok hv hb0 hsteps
    cases hok
    have hp := TransportLimitedWidth.TL_runUpdates_props steps _ hv
      (fun x hx => (hsteps x hx).1) (by simp) hb0 (List.chain'_singleton b0)
    refine ⟨?_, hp.2.2.2⟩
    rw [hp.1]
    simp [Nat.add_comm]
  · intro hb S tc kd eps itc lam b0 mf fuel m sF steps hok hv hb0 hmf0 hmf1
      hsteps hrun
    cases hok
    have hp := DetachmentLimitedWidth.DL_runUpdates_props steps _ fuel mf hmf0
      hmf1 hv hsteps (by simp) hb0 rfl (List.chain'_singleton b0) sF hrun
    refine ⟨?_, hp.2.2.2.2⟩
    rw [hp.1]
    simp [Nat.add_comm]

theorem width_history_appends_once_and_monotone_witness :
    DetachmentLimitedWidth.init 1 1 1 1 (some 1) none 0.2 1 1 = .ok dlExample ∧
      dlExample.ValidParams ∧ (0 : ℝ) < 1 ∧ (0 : ℝ) < 0.1 ∧ (0.1 : ℝ) < 1 ∧
      DetachmentLimitedWidth.runUpdates 0 0.1 dlExample [] = .ok dlExample ∧
      (dlExample.b.length = List.length ([] : List (ℝ × ℝ)) + 1 ∧
        List.Chain' (· ≤ ·) dlExample.b) := by
  have hinit : DetachmentLimitedWidth.init 1 1 1 1 (some 1) none 0.2 1 1 =
      .ok dlExample := rfl
  have hrun : DetachmentLimitedWidth.runUpdates 0 0.1 dlExample [] =
      .ok dlExample := rfl
  have hv : dlExample.ValidParams := by
    refine ⟨?_, ?_, ?_, ?_, ?_, ?_, ?_⟩ <;> norm_num [dlExample]
  exact ⟨hinit, hv, by norm_num, by norm_num, by norm_num, hrun,
    width_history_appends_once_and_monotone.2.2.2 1 1 1 1 0.2 1 1 1 0.1 0
      dlExample dlExample [] hinit hv (by norm_num) (by norm_num) (by norm_num)
      (by simp) hrun⟩

/-- C3: for the detachment-limited per-step update with `dt ≥ 0`, the
adaptive inner sub-stepping consumes exactly the outer time step: the sum of
the `dt_inner` values across the call equals `dt` whenever the loop reaches
its exit test `dt_remaining != 0` with exactly zero remaining, and the
`RuntimeError` branch for negative remaining time is never reached. -/
theorem detachmentLimited_substepping_conserves_time
    (s : DetachmentLimitedWidth) (fuel : ℕ) (dt Qi mf : ℝ) (hdt : 0 ≤ dt) :
    (∀ r, s.update fuel dt Qi mf ≠ .invariantViolation r) ∧
    (∀ biF ds, s.innerLoop Qi mf fuel (lastD s.b) dt [] = .ok biF ds →
      ds.sum = dt) := by
  refine ⟨DetachmentLimitedWidth.update_no_violation s fuel Qi mf hdt, ?_⟩
  intro biF ds hok
  have hsum := (DetachmentLimitedWidth.innerLoop_props s Qi mf fuel
    (lastD s.b) dt [] hdt).2 biF ds hok
  simpa using hsum

theorem detachmentLimited_substepping_conserves_time_witness :
    (0 : ℝ) ≤ 0 ∧
      ((∀ r, dlExample.update 1 0 0 0.1 ≠ .invariantViolation r) ∧
        (∀ biF ds, dlExample.innerLoop 0 0.1 1 (lastD dlExample.b) 0 [] =
          .ok biF ds → ds.sum = 0)) :=
  ⟨le_refl 0,
    detachmentLimited_substepping_conserves_time dlExample 1 0 0 0.1 (le_refl 0)⟩

/-- C4: a detachment-limited update called with bank stress above `tau_crit`
and current width strictly below the equilibrium width at the given
discharge leaves the width strictly below the equilibrium width: each inner
sub-step is bounded by
`dt_inner = min(remaining, max_fract_to_equilib·(b_eq - b)/dbdt)` with
`0 < max_fract_to_equilib < 1` (default `0.1`), so the width never
overshoots equilibrium. -/
theorem detachmentLimited_never_overshoots_equilibrium
    (s : DetachmentLimitedWidth) (h : s.ValidParams) (fuel : ℕ)
    (dt Qi mf : ℝ) (hdt : 0 ≤ dt) (hQ : 0 < Qi) (hmf0 : 0 < mf)
    (hmf1 : mf < 1) (hb : 0 < lastD s.b)
    (htau : s.tau_crit < s.a1 * (Qi / lastD s.b) ^ (0.6 : ℝ))
    (hlt : lastD s.b < s.get_equilibriumWidth Qi) :
    ∀ s', s.update fuel dt Qi mf = .ok s' →
      s'.bi < s.get_equilibriumWidth Qi ∧
        lastD s'.b < s.get_equilibriumWidth Qi := by
  intro s' hok
  unfold DetachmentLimitedWidth.update at hok
  dsimp only at hok
  split_ifs at hok with hcond
  · rcases hl : s.innerLoop Qi mf fuel (lastD s.b) dt [] with ⟨biF, ds⟩ | r | _ <;>
      rw [hl] at hok <;> cases hok
    have hm := DetachmentLimitedWidth.innerLoop_mono h hQ hmf0 hmf1 fuel
      (lastD s.b) dt [] biF ds hb hlt hdt hl
    refine ⟨hm.2.2, ?_⟩
    have hbF : lastD ({ s with
        Qi := some Qi,
        bi := biF,
        b := s.b ++ [biF] } : DetachmentLimitedWidth).b = biF :=
      lastD_concat s.b biF
    rw [hbF]
    exact hm.2.2
  · exact absurd htau hcond

theorem detachmentLimited_never_overshoots_equilibrium_witness :
    dlExample.ValidParams ∧ (0 : ℝ) ≤ 0 ∧ (0 : ℝ) < 1 ∧ (0 : ℝ) < 0.1 ∧
      (0.1 : ℝ) < 1 ∧ 0 < lastD dlExample.b ∧
      dlExample.tau_crit < dlExample.a1 * (1 / lastD dlExample.b) ^ (0.6 : ℝ) ∧
      lastD dlExample.b < dlExample.get_equilibriumWidth 1 ∧
      ∀ s', dlExample.update 0 0 1 0.1 = .ok s' →
        s'.bi < dlExample.get_equilibriumWidth 1 ∧
          lastD s'.b < dlExample.get_equilibriumWidth 1 := by
  have hv : dlExample.ValidParams := by
    refine ⟨?_, ?_, ?_, ?_, ?_, ?_, ?_⟩ <;> norm_num [dlExample]
  have hlast : lastD dlExample.b = 1 := rfl
  have htc : dlExample.tau_crit = 1 := rfl
  have hg1 : (1 : ℝ) ≤ (9.805 : ℝ) ^ (0.7 : ℝ) := by
    have h := Real.rpow_le_rpow_of_exponent_le
      (show (1 : ℝ) ≤ 9.805 by norm_num) (show (0 : ℝ) ≤ 0.7 by norm_num)
    simpa [Real.rpow_zero] using h
  have h81 : (8.1 : ℝ) ^ (0.6 : ℝ) ≤ 8.1 := by
    have h := Real.rpow_le_rpow_of_exponent_le
      (show (1 : ℝ) ≤ 8.1 by norm_num) (show (0.6 : ℝ) ≤ 1 by norm_num)
    simpa [Real.rpow_one] using h
  have h81pos : (0 : ℝ) < (8.1 : ℝ) ^ (0.6 : ℝ) :=
    Real.rpow_pos_of_pos (by norm_num) _
  have ha1 : 1 < dlExample.a1 := by
    have hform : dlExample.a1 = rho * g ^ (0.7 : ℝ) * (1 : ℝ) ^ (0.7 : ℝ)
        * (1 : ℝ) ^ (0.1 : ℝ) / ((8.1 : ℝ) ^ (0.6 : ℝ) * (1 + 0.2)) := rfl
    rw [hform, Real.one_rpow, Real.one_rpow, mul_one, mul_one,
      show rho = (1000 : ℝ) from rfl, show g = (9.805 : ℝ) from rfl,
      one_lt_div (mul_pos h81pos (by norm_num : (0 : ℝ) < 1 + 0.2))]
    nlinarith [hg1, h81]
  have htau : dlExample.tau_crit
      < dlExample.a1 * (1 / lastD dlExample.b) ^ (0.6 : ℝ) := by
    rw [hlast, htc]
    have h1 : ((1 : ℝ) / 1) ^ (0.6 : ℝ) = 1 := by
      rw [div_one, Real.one_rpow]
    rw [h1, mul_one]
    exact ha1
  have hlt : lastD dlExample.b < dlExample.get_equilibriumWidth 1 := by
    rw [hlast, DetachmentLimitedWidth.get_equilibriumWidth_eq_a1 hv 1, htc,
      Real.one_rpow, mul_one, div_one]
    exact (Real.one_lt_rpow_iff_of_pos (lt_trans zero_lt_one ha1)).mpr
      (Or.inl ⟨ha1, by norm_num⟩)
  refine ⟨hv, le_refl 0, by norm_num, by norm_num, by norm_num,
    by rw [hlast]; norm_num, htau, hlt, ?_⟩
  exact detachmentLimited_never_overshoots_equilibrium dlExample hv 0 0 1 0.1
    (le_refl 0) (by norm_num) (by norm_num) (by norm_num)
    (by rw [hlast]; norm_num) htau hlt

/-- The claim that the equilibrium-width relation fails on negative
discharge is false of the code: at the concrete configuration `dlExample2`
and discharge `-1`, the relation raises nothing (its body has no raise and
no zero divisor) and returns a negative width. -/
theorem negative_discharge_returns_normally_counterexample :
    dlExample2.get_equilibriumWidthE (-1) =
        .ok (dlExample2.get_equilibriumWidth (-1)) ∧
      dlExample2.get_equilibriumWidth (-1) < 0 := by
  have hε : (0 : ℝ) < 1 + dlExample2.Parker_epsilon := by norm_num [dlExample2]
  have h1 : (0 : ℝ) < 8.1 * (1 + dlExample2.Parker_epsilon) ^ ((5 : ℝ) / 3) :=
    mul_pos (by norm_num) (Real.rpow_pos_of_pos hε _)
  have h2 : (0 : ℝ) < dlExample2.tau_crit ^ ((5 : ℝ) / 3) :=
    Real.rpow_pos_of_pos (by norm_num [dlExample2]) _
  constructor
  · unfold DetachmentLimitedWidth.get_equilibriumWidthE
    rw [if_neg h1.ne', if_neg h2.ne']
  · unfold DetachmentLimitedWidth.get_equilibriumWidth
    have hc : (0 : ℝ) < rho ^ ((5 : ℝ) / 3) * g ^ ((7 : ℝ) / 6)
        * dlExample2.S ^ ((7 : ℝ) / 6) * dlExample2.lambda_r ^ ((1 : ℝ) / 6)
        / (8.1 * (1 + dlExample2.Parker_epsilon) ^ ((5 : ℝ) / 3)) :=
      div_pos (mul_pos (mul_pos (mul_pos (Real.rpow_pos_of_pos rho_pos _)
        (Real.rpow_pos_of_pos g_pos _))
        (Real.rpow_pos_of_pos (by norm_num [dlExample2]) _))
        (Real.rpow_pos_of_pos (by norm_num [dlExample2]) _)) h1
    exact div_neg_of_neg_of_pos
      (mul_neg_of_pos_of_neg hc (by norm_num)) h2

/-- C8 (amended): neither equilibrium-width relation performs a domain check
on its discharge argument — with valid parameters both return normally for
every real discharge, and for a negative discharge they return a negative
width — and the transport-limited bank-stress evaluator performs no width
check: at zero current width its failure is the `ZeroDivisionError` of the
division `Qi/bi` itself, not a `DomainError`. -/
theorem no_domain_check_on_width_or_discharge
    (sT : TransportLimitedWidth) (sD : DetachmentLimitedWidth)
    (hT : sT.ValidParams) (hD : sD.ValidParams) (Q : ℝ) :
    sD.get_equilibriumWidthE Q = .ok (sD.get_equilibriumWidth Q) ∧
    (Q < 0 → sD.get_equilibriumWidth Q < 0) ∧
    sT.get_equilibriumWidthE Q = .ok (sT.get_equilibriumWidth Q) ∧
    (Q < 0 → sT.get_equilibriumWidth Q < 0) ∧
    (sT.bi = 0 → sT.get_bankShieldsStressE = .error .zeroDivisionError) := by
  have hεD : (0 : ℝ) < 1 + sD.Parker_epsilon := hD.2.2.2.2.2.2
  have h1 : (0 : ℝ) < 8.1 * (1 + sD.Parker_epsilon) ^ ((5 : ℝ) / 3) :=
    mul_pos (by norm_num) (Real.rpow_pos_of_pos hεD _)
  have h2 : (0 : ℝ) < sD.tau_crit ^ ((5 : ℝ) / 3) :=
    Real.rpow_pos_of_pos hD.2.2.1 _
  have hcD : (0 : ℝ) < rho ^ ((5 : ℝ) / 3) * g ^ ((7 : ℝ) / 6)
      * sD.S ^ ((7 : ℝ) / 6) * sD.lambda_r ^ ((1 : ℝ) / 6)
      / (8.1 * (1 + sD.Parker_epsilon) ^ ((5 : ℝ) / 3)) :=
    div_pos (mul_pos (mul_pos (mul_pos (Real.rpow_pos_of_pos rho_pos _)
      (Real.rpow_pos_of_pos g_pos _))
      (Real.rpow_pos_of_pos hD.2.1 _))
      (Real.rpow_pos_of_pos hD.2.2.2.2.2.1 _)) h1
  have hDpow : (0 : ℝ) < sT.D ^ (1.5 : ℝ) :=
    Real.rpow_pos_of_pos hT.2.2.1 _
  refine ⟨?_, ?_, ?_, ?_, ?_⟩
  · unfold DetachmentLimitedWidth.get_equilibriumWidthE
    rw [if_neg h1.ne', if_neg h2.ne']
  · intro hQ
    unfold DetachmentLimitedWidth.get_equilibriumWidth
    exact div_neg_of_neg_of_pos (mul_neg_of_pos_of_neg hcD hQ) h2
  · unfold TransportLimitedWidth.get_equilibriumWidthE
    rw [if_neg hDpow.ne']
  · intro hQ
    unfold TransportLimitedWidth.get_equilibriumWidth
    have hS7 : (0 : ℝ) < sT.S ^ ((7 : ℝ) / 6) :=
      Real.rpow_pos_of_pos hT.2.1 _
    exact div_neg_of_neg_of_pos
      (mul_neg_of_neg_of_pos
        (mul_neg_of_pos_of_neg (TransportLimitedWidth.k_b__eq_pos hT) hQ) hS7)
      hDpow
  · intro h0
    unfold TransportLimitedWidth.get_bankShieldsStressE
    rw [if_pos h0]

theorem no_domain_check_on_width_or_discharge_witness :
    tlExample.ValidParams ∧ dlExample2.ValidParams ∧
      (dlExample2.get_equilibriumWidthE (-1) =
          .ok (dlExample2.get_equilibriumWidth (-1)) ∧
        ((-1 : ℝ) < 0 → dlExample2.get_equilibriumWidth (-1) < 0) ∧
        tlExample.get_equilibriumWidthE (-1) =
          .ok (tlExample.get_equilibriumWidth (-1)) ∧
        ((-1 : ℝ) < 0 → tlExample.get_equilibriumWidth (-1) < 0) ∧
        (tlExample.bi = 0 →
          tlExample.get_bankShieldsStressE = .error .zeroDivisionError)) := by
  have hvT : tlExample.ValidParams := by
    refine ⟨?_, ?_, ?_, ?_, ?_⟩ <;> norm_num [tlExample]
  have hvD : dlExample2.ValidParams := by
    refine ⟨?_, ?_, ?_, ?_, ?_, ?_, ?_⟩ <;> norm_num [dlExample2]
  exact ⟨hvT, hvD,
    no_domain_check_on_width_or_discharge tlExample dlExample2 hvT hvD (-1)⟩

/-- C9: the transport-limited bed-stress evaluator cannot return the claimed
`τ*_bed = h·S/(SSG·D)`: as written, `get_bedShieldsStress` first reads the
bare name `get_depth` (and `get_depth` itself reads the bare names `D`,
`g`, `S`), none of which is bound at module scope, so the call raises
`NameError` before computing anything.  The intended computation — each bare
name read as the attribute of the same name — does equal the claimed
formula. -/
theorem bedShieldsStress_unbound_names_and_intended_formula :
    ("get_depth" ∈ get_bedShieldsStress_bareReads ∧
        "get_depth" ∉ moduleScopeNames ∧
        "D" ∈ get_depth_bareReads ∧ "D" ∉ moduleScopeNames) ∧
      ∀ s : TransportLimitedWidth,
        s.get_bedShieldsStress_intended =
          s.D ^ (0.1 : ℝ) / (2.9 * g ^ (0.3 : ℝ) * s.S ^ (0.3 : ℝ))
            * (s.Qi / s.bi) ^ (0.6 : ℝ) * s.S / (SSG * s.D) :=
  ⟨by decide, fun s => rfl⟩

end

end Riverwidth
